import Mathlib

/-!
Verification of the staged-commit approval workflow engine of the
ASAP procurement middleware.

The definitions below are a shallow embedding of the Python source:

* `RiskScoringEngine.score`      — core/risk_scoring.py
* `ApprovalOrchestrator.*`       — services/orchestrator.py
* `CommitWorker.*`               — scheduler/worker.py
* `SAPERPAdapter.execute_request`— adapters/sap_adapter.py

Timestamps are modelled as integers (minutes); money and risk scores as
rationals (every constant involved is exactly representable, so the float
arithmetic of the source agrees with the rational model on all values the
comparisons ever see).  The SQLAlchemy session is modelled as a list of
decision rows; a transaction commit that can fail is modelled by a boolean
flag: on failure the operation rolls back (returns the original store).
-/

namespace ASAP

/-- Lifecycle states of an approval decision (`state` column of
db/models.py, "detected | pending_commit | cancelled | committed | failed"). -/
inductive LifecycleState where
  | detected
  | pending_commit
  | cancelled
  | committed
  | failed
deriving DecidableEq, Repr

/-- Decision outcomes (`decision` column of db/models.py,
"auto_approve | manual_approve | reject | hold"). -/
inductive Outcome where
  | auto_approve
  | manual_approve
  | reject
  | hold
deriving DecidableEq, Repr

/-- Normalised purchase requisition (models/domain.py `RequisitionDTO`),
restricted to the fields the core engine reads. -/
structure Requisition where
  erp_requisition_id : String
  material : Option String := none
  quantity : Option ℚ := none
  price : Option ℚ := none
  plant : Option String := none
deriving DecidableEq, Repr

/-- A persisted approval decision row (db/models.py `ApprovalDecision`),
restricted to the fields the workflow engine reads or writes. -/
structure Decision where
  id : Nat
  erp_requisition_id : String
  risk_score : ℚ
  decision : Outcome
  state : LifecycleState
  commit_at : ℤ
  committed_at : Option ℤ := none
  error_message : Option String := none
  comment : Option String := none
  created_at : ℤ := 0
deriving DecidableEq, Repr

/-- The decision store: the `approval_decisions` table as a list of rows. -/
abbrev Store := List Decision

-- ---------------------------------------------------------------------------
-- Python string helpers used by the orchestrator's comment updates
-- ---------------------------------------------------------------------------

/-- Python `str.strip(chars)`: drop characters of `cs` from both ends. -/
def pyStrip (cs : List Char) (s : String) : String :=
  ⟨((s.data.dropWhile (cs.contains ·)).reverse.dropWhile (cs.contains ·)).reverse⟩

/-- The whitespace characters stripped by Python `str.strip()` with no
argument (ASCII whitespace; sufficient for the comment strings in play). -/
def pyWhitespace : List Char := [' ', '\t', '\n', '\x0b', '\x0c', '\r']

/-- The character set of the source's `.strip(" |")` calls. -/
def pipeSpace : List Char := [' ', '|']

/-- Python truthiness of an optional string (`if comment:`):
present and non-empty. -/
def pyTruthy : Option String → Bool
  | none => false
  | some s => s ≠ ""

/-- Python substring test `needle in hay`. -/
def pySubstr (needle hay : String) : Bool :=
  decide (needle.data <:+: hay.data)

/-- Python `str.upper()` (ASCII, as used on material/plant codes). -/
def pyUpper (s : String) : String := ⟨s.data.map Char.toUpper⟩

/-- Python builtin `min` on two numbers. -/
def pyMin (a b : ℚ) : ℚ := if a ≤ b then a else b

/-- A comment string whose first character survives both of the source's
strip calls: it is neither whitespace (stripped by `.strip()`) nor a space
or pipe (stripped by `.strip(" |")`). -/
def commentHeadSafe (p : String) : Bool :=
  match p.data with
  | [] => true
  | ch :: _ => !(pyWhitespace.contains ch) && !(pipeSpace.contains ch)

-- ---------------------------------------------------------------------------
-- RiskScoringEngine (core/risk_scoring.py)
-- ---------------------------------------------------------------------------

namespace RiskScoringEngine

def HIGH_VALUE_THRESHOLD : ℚ := 100
def ELEVATED_VALUE_THRESHOLD : ℚ := 50
def MODERATE_VALUE_THRESHOLD : ℚ := 20
def UNIT_PRICE_THRESHOLD : ℚ := 10
def QUANTITY_THRESHOLD : ℚ := 5

def HIGH_RISK_MATERIALS : List String :=
  ["HAZMAT", "CHEM", "CHEMICAL", "EXPLOSIVE", "RADIOACTIVE", "BIOHAZARD", "TOXIC"]

def RESTRICTED_PLANTS : List String :=
  ["NUCLEAR", "DEFENSE", "WEAPONS", "CLASSIFIED"]

/-- `RiskScoringEngine.score`: sum of the six risk dimensions, capped at 100. -/
def score (r : Requisition) : ℚ :=
  let totalValueRisk : ℚ :=
    match r.price, r.quantity with
    | some p, some q =>
        let tv := p * q
        if tv > HIGH_VALUE_THRESHOLD then 40
        else if tv > ELEVATED_VALUE_THRESHOLD then 20
        else if tv > MODERATE_VALUE_THRESHOLD then 10
        else 0
    | _, _ => 0
  let unitPriceRisk : ℚ :=
    match r.price with
    | some p => if p > UNIT_PRICE_THRESHOLD then 15 else 0
    | none => 0
  let quantityRisk : ℚ :=
    match r.quantity with
    | some q => if q > QUANTITY_THRESHOLD then 10 else 0
    | none => 0
  let materialRisk : ℚ :=
    match r.material with
    | some m =>
        if m ≠ "" ∧ HIGH_RISK_MATERIALS.any (fun kw => pySubstr kw (pyUpper m))
        then 20 else 0
    | none => 0
  let plantRisk : ℚ :=
    match r.plant with
    | some pl =>
        if pl ≠ "" ∧ RESTRICTED_PLANTS.any (fun rp => pySubstr rp (pyUpper pl))
        then 15 else 0
    | none => 0
  let missingPriceRisk : ℚ := if r.price = none then 5 else 0
  let missingQuantityRisk : ℚ := if r.quantity = none then 5 else 0
  pyMin (totalValueRisk + unitPriceRisk + quantityRisk + materialRisk
        + plantRisk + missingPriceRisk + missingQuantityRisk) 100

end RiskScoringEngine

-- ---------------------------------------------------------------------------
-- ApprovalOrchestrator (services/orchestrator.py)
-- ---------------------------------------------------------------------------

namespace ApprovalOrchestrator

def LOW_RISK_THRESHOLD : ℚ := 30
def MEDIUM_RISK_THRESHOLD : ℚ := 70

/-- `_determine_decision`: map a risk score to an outcome. -/
def determine_decision (risk_score : ℚ) : Outcome :=
  if risk_score < LOW_RISK_THRESHOLD then .auto_approve
  else if risk_score < MEDIUM_RISK_THRESHOLD then .manual_approve
  else .hold

/-- Two-decimal rendering of a score, as Python `%.2f` renders the
integer-valued scores the engine emits. -/
def fmtScore (q : ℚ) : String :=
  if q.den = 1 then toString q.num ++ ".00" else toString q.num ++ "/" ++ toString q.den

/-- `_generate_comment`. -/
def generate_comment (risk_score : ℚ) (decision : Outcome) : String :=
  if decision = .auto_approve then
    "Low risk (score: " ++ fmtScore risk_score ++ ") — auto-approved"
  else if decision = .manual_approve then
    "Medium risk (score: " ++ fmtScore risk_score ++ ") — requires approval"
  else
    "High risk (score: " ++ fmtScore risk_score ++ ") — flagged for review"

/-- The states the source treats as active:
`state.in_(["pending_commit", "detected"])`. -/
def isActiveState (s : LifecycleState) : Bool :=
  s == .pending_commit || s == .detected

/-- The terminal states of the lifecycle. -/
def isTerminal (s : LifecycleState) : Bool :=
  s == .committed || s == .cancelled || s == .failed

/-- The row filter shared by `_has_active_decision` and
`_find_pending_decision`: this requisition, still in an active state. -/
def activeFor (rid : String) (d : Decision) : Bool :=
  d.erp_requisition_id == rid && isActiveState d.state

/-- `_has_active_decision`: some row for this requisition is still active. -/
def has_active_decision (rid : String) (db : Store) : Bool :=
  db.any (activeFor rid)

/-- The dedup invariant: at most one active decision per requisition id. -/
def atMostOneActive (db : Store) : Prop :=
  ∀ rid, db.countP (activeFor rid) ≤ 1

/-- Row ordering used by `ORDER BY created_at DESC`. -/
def createdDesc (a b : Decision) : Prop := b.created_at ≤ a.created_at

instance : DecidableRel createdDesc := fun a b =>
  inferInstanceAs (Decidable (b.created_at ≤ a.created_at))

instance : IsTotal Decision createdDesc := ⟨fun a b => le_total b.created_at a.created_at⟩

instance : IsTrans Decision createdDesc := ⟨fun _ _ _ h h' => le_trans h' h⟩

/-- Row ordering used by `ORDER BY commit_at` (ascending). -/
def commitLe (a b : Decision) : Prop := a.commit_at ≤ b.commit_at

instance : DecidableRel commitLe := fun a b =>
  inferInstanceAs (Decidable (a.commit_at ≤ b.commit_at))

instance : IsTotal Decision commitLe := ⟨fun a b => le_total a.commit_at b.commit_at⟩

instance : IsTrans Decision commitLe := ⟨fun _ _ _ h h' => le_trans h h'⟩

/-- `_find_pending_decision`: latest active row for the requisition
(`ORDER BY created_at DESC LIMIT 1`). -/
def find_pending_decision (rid : String) (db : Store) : Option Decision :=
  (List.insertionSort createdDesc (db.filter (activeFor rid))).head?

/-- `list_pending_commits`: rows in `pending_commit` whose grace period has
expired, earliest `commit_at` first. -/
def list_pending_commits (now : ℤ) (db : Store) : List Decision :=
  List.insertionSort commitLe
    (db.filter (fun d => d.state == .pending_commit && decide (d.commit_at ≤ now)))

/-- The ORM identity map: mutating the decision object with primary key `i`
updates that row of the store. -/
def updateById (db : Store) (i : Nat) (g : Decision → Decision) : Store :=
  db.map (fun x => if x.id == i then g x else x)

/-- Comment update of `undo_decision`:
`f"{comment or ''} [Cancelled by user]".strip()`. -/
def undoComment (old : Option String) : String :=
  pyStrip pyWhitespace (old.getD "" ++ " [Cancelled by user]")

/-- Comment update of `approve_decision` (the `.strip(" |")` calls). -/
def approveComment (old : Option String) (c : Option String) : String :=
  if pyTruthy c then
    pyStrip pipeSpace (old.getD "" ++ " | Approved: " ++ c.getD "")
  else
    pyStrip pipeSpace (old.getD "" ++ " | Manually approved by manager")

/-- Comment update of `reject_decision`. -/
def rejectComment (old : Option String) (c : Option String) : String :=
  if pyTruthy c then
    pyStrip pipeSpace (old.getD "" ++ " | Rejected: " ++ c.getD "")
  else
    pyStrip pipeSpace (old.getD "" ++ " | Manually rejected by manager")

/-- `undo_decision`: cancel the latest active decision for a requisition.
`commitOk` models whether the final `db.commit()` succeeds; on failure the
source rolls back and returns None. -/
def undo_decision (rid : String) (db : Store) (commitOk : Bool) :
    Store × Option Decision :=
  match find_pending_decision rid db with
  | none => (db, none)
  | some d =>
      let g : Decision → Decision := fun x =>
        { x with state := .cancelled, comment := some (undoComment x.comment) }
      if commitOk then (updateById db d.id g, some (g d)) else (db, none)

/-- `approve_decision`: force the latest active decision to
`manual_approve` and transition it straight to `committed`. -/
def approve_decision (rid : String) (c : Option String) (now : ℤ)
    (db : Store) (commitOk : Bool) : Store × Option Decision :=
  match find_pending_decision rid db with
  | none => (db, none)
  | some d =>
      let g : Decision → Decision := fun x =>
        { x with decision := .manual_approve, state := .committed,
                 committed_at := some now,
                 comment := some (approveComment x.comment c) }
      if commitOk then (updateById db d.id g, some (g d)) else (db, none)

/-- `reject_decision`: force the latest active decision to `reject` and
transition it straight to `committed`. -/
def reject_decision (rid : String) (c : Option String) (now : ℤ)
    (db : Store) (commitOk : Bool) : Store × Option Decision :=
  match find_pending_decision rid db with
  | none => (db, none)
  | some d =>
      let g : Decision → Decision := fun x =>
        { x with decision := .reject, state := .committed,
                 committed_at := some now,
                 comment := some (rejectComment x.comment c) }
      if commitOk then (updateById db d.id g, some (g d)) else (db, none)

/-- Settings read by the staging workflow (config.py). -/
structure Settings where
  auto_commit_enabled : Bool
  grace_period_minutes : ℤ
deriving DecidableEq, Repr

/-- One newly staged decision row (the `ApprovalDecision(...)` constructor
call inside `detect_and_stage_requisitions`). -/
def stageOne (s : Settings) (now : ℤ) (freshId : Nat) (r : Requisition) : Decision :=
  let risk := RiskScoringEngine.score r
  let dec := determine_decision risk
  { id := freshId
    erp_requisition_id := r.erp_requisition_id
    risk_score := risk
    decision := dec
    state := if s.auto_commit_enabled then .pending_commit else .detected
    commit_at := now + s.grace_period_minutes
    committed_at := none
    error_message := none
    comment := some (generate_comment risk dec)
    created_at := now }

/-- The per-requisition loop of `detect_and_stage_requisitions`: skip a
requisition when `_has_active_decision` finds an active decision,
otherwise add a new row.  The session is created with `autoflush=False`
(db/session.py), so the SELECT inside the check sees only the store as it
was when the batch started (`db0`): rows added earlier in the same batch
are pending, unflushed adds and are invisible to it.  `ids` supplies the
fresh UUIDs.  Returns the grown store and the newly created rows in
creation order. -/
def stageLoop (s : Settings) (now : ℤ) (db0 : Store) :
    List Requisition → List Nat → Store → Store × List Decision
  | [], _, db => (db, [])
  | r :: rs, ids, db =>
      if has_active_decision r.erp_requisition_id db0 then
        stageLoop s now db0 rs ids db
      else
        let d := stageOne s now (ids.headD 0) r
        let res := stageLoop s now db0 rs ids.tail (db ++ [d])
        (res.1, d :: res.2)

/-- `detect_and_stage_requisitions`, given the fetched requisitions.
The dedup checks run against the store as of batch start (the session is
`autoflush=False`).  `commitOk` models the final `db.commit()`: on
failure the source rolls back and returns an empty list. -/
def detect_and_stage_requisitions (s : Settings) (now : ℤ)
    (reqs : List Requisition) (ids : List Nat) (commitOk : Bool)
    (db : Store) : Store × List Decision :=
  let res := stageLoop s now db reqs ids db
  if commitOk then res else (db, [])

end ApprovalOrchestrator

-- ---------------------------------------------------------------------------
-- CommitWorker (scheduler/worker.py)
-- ---------------------------------------------------------------------------

namespace CommitWorker

open ApprovalOrchestrator

/-- Behaviour of `adapter.submit_approval` for one decision: it either
raises an exception or returns a payload whose `status` field is read by
the worker (`None` when the payload is not a dict or has no status). -/
inductive ErpReply where
  | raises (msg : String)
  | returns (status : Option String)

/-- Result of processing one candidate, for the tick statistics. -/
inductive ProcResult where
  | committedRes
  | skippedRes
  | failedRes
deriving DecidableEq, Repr

/-- The ERP response statuses accepted as successful
(`_ACCEPTED_ERP_STATUSES`). -/
def ACCEPTED_ERP_STATUSES : List String := ["ok", "simulated"]

/-- Error-message truncation of `_mark_as_failed` (`str(exception)[:500]`). -/
def truncate500 (msg : String) : String := ⟨msg.data.take 500⟩

/-- `_mark_as_failed`: transition the row to `failed` and record the
truncated error text. -/
def mark_as_failed (db : Store) (d : Decision) (msg : String) : Store :=
  updateById db d.id (fun x =>
    { x with state := .failed, error_message := some (truncate500 msg) })

/-- The success path of `_process_single_decision`: transition to
`committed` and stamp `committed_at`. -/
def markCommitted (db : Store) (d : Decision) (now : ℤ) : Store :=
  updateById db d.id (fun x =>
    { x with state := .committed, committed_at := some now })

/-- `_process_single_decision`, combined with the exception handler of
`run` that marks a decision `failed` when processing raises.
`erp` gives the connector's reply for each decision id.  Steps:
re-read the row fresh (double-commit guard) and skip unless it is still
`pending_commit`; submit to the ERP; treat `already_processed` like the
accepted statuses `ok` / `simulated`; otherwise raise, which the caller
turns into a `failed` transition. -/
def process_single_decision (erp : Nat → ErpReply) (now : ℤ)
    (db : Store) (d : Decision) : Store × ProcResult :=
  match db.find? (fun x => x.id == d.id) with
  | none => (db, .skippedRes)
  | some fresh =>
      if fresh.state ≠ .pending_commit then
        (db, .skippedRes)
      else
        match erp d.id with
        | .raises msg => (mark_as_failed db d msg, .failedRes)
        | .returns status =>
            if status == some "already_processed"
              || status.any (fun st => ACCEPTED_ERP_STATUSES.contains st) then
              (markCommitted db d now, .committedRes)
            else
              (mark_as_failed db d
                ("ERP commit rejected: status=" ++ toString status), .failedRes)

/-- One tick of `CommitWorker.run`: query the commit-ready candidates and
process them sequentially in commit-time order; `tickOk` models the final
`db.commit()` — on failure the whole tick rolls back. -/
def run (erp : Nat → ErpReply) (now : ℤ) (tickOk : Bool) (db : Store) : Store :=
  let cands := list_pending_commits now db
  let final := cands.foldl (fun s c => (process_single_decision erp now s c).1) db
  if tickOk then final else db

end CommitWorker

-- ---------------------------------------------------------------------------
-- SAPERPAdapter._execute_request (adapters/sap_adapter.py)
-- ---------------------------------------------------------------------------

namespace SAPERPAdapter

/-- HTTP methods used by the live connector. -/
inductive HttpMethod where
  | get
  | post
  | patch
  | put
  | delete
deriving DecidableEq, Repr

/-- `requests` considers a response ok when its status code is below 400. -/
def statusOk (status : Nat) : Bool := status < 400

/-- Observable behaviour of one `_execute_request` call. -/
structure ExecTrace where
  attempts : Nat
  tokenFetches : Nat
  finalStatus : Nat
  succeeded : Bool
deriving DecidableEq, Repr

/-- `_execute_request`, modelled over a scripted upstream: `resp1` is the
status of the first send of the request, `resp2` the status of the resend
(consumed only when a resend happens).  On a 403 for a non-GET method the
source fetches a fresh CSRF token and resends the single request once;
any other failing status (including a second 403) raises immediately. -/
def execute_request (method : HttpMethod) (resp1 resp2 : Nat) : ExecTrace :=
  if resp1 = 403 ∧ method ≠ .get then
    { attempts := 2, tokenFetches := 1, finalStatus := resp2,
      succeeded := statusOk resp2 }
  else
    { attempts := 1, tokenFetches := 0, finalStatus := resp1,
      succeeded := statusOk resp1 }

end SAPERPAdapter

-- ---------------------------------------------------------------------------
-- Concrete instances used by counterexamples and witnesses
-- ---------------------------------------------------------------------------

/-- Scenario A of the spec: price 200, quantity 1, nothing else risky. -/
def scenarioA : Requisition :=
  { erp_requisition_id := "REQ-A", price := some 200, quantity := some 1 }

/-- A staged auto-approved decision still inside its grace period. -/
def autoStaged : Decision :=
  { id := 1, erp_requisition_id := "REQ-1", risk_score := 10,
    decision := .auto_approve, state := .pending_commit, commit_at := 5,
    comment := some "Low risk (score: 10.00) — auto-approved", created_at := 0 }

/-- A pending decision whose comment starts with a space: input for the C9
counterexample. -/
def spaceComment : Decision :=
  { id := 2, erp_requisition_id := "REQ-2", risk_score := 10,
    decision := .auto_approve, state := .pending_commit, commit_at := 5,
    comment := some " x", created_at := 0 }

/-- A decision already in the terminal state `committed`. -/
def committedRow : Decision :=
  { id := 3, erp_requisition_id := "REQ-3", risk_score := 10,
    decision := .manual_approve, state := .committed, commit_at := 5,
    committed_at := some 9, comment := some "done", created_at := 0 }

/-- A commit-ready pending decision (grace period expired at time 10). -/
def duePending : Decision :=
  { id := 4, erp_requisition_id := "REQ-4", risk_score := 10,
    decision := .auto_approve, state := .pending_commit, commit_at := 5,
    comment := some "Low risk (score: 10.00) — auto-approved", created_at := 0 }

-- ---------------------------------------------------------------------------
-- Helper lemmas
-- ---------------------------------------------------------------------------

namespace ApprovalOrchestrator

/-- A row returned by `_find_pending_decision` comes from the store and
matches the active-row filter. -/
theorem find_pending_decision_spec {rid : String} {db : Store} {f : Decision}
    (h : find_pending_decision rid db = some f) :
    f ∈ db ∧ activeFor rid f = true := by
  unfold find_pending_decision at h
  rcases List.head?_eq_some_iff.mp h with ⟨ys, hys⟩
  have hmem : f ∈ List.insertionSort createdDesc (db.filter (activeFor rid)) := by
    rw [hys]; exact List.mem_cons_self _ _
  have hmem' : f ∈ db.filter (activeFor rid) :=
    (List.perm_insertionSort createdDesc _).mem_iff.mp hmem
  exact ⟨(List.mem_filter.mp hmem').1, (List.mem_filter.mp hmem').2⟩

/-- An active row is not terminal. -/
theorem not_terminal_of_activeFor {rid : String} {f : Decision}
    (h : activeFor rid f = true) : isTerminal f.state = false := by
  unfold activeFor isActiveState at h
  simp only [Bool.and_eq_true, Bool.or_eq_true, beq_iff_eq] at h
  rcases h.2 with h2 | h2 <;> simp [isTerminal, h2]

/-- A row whose id is not the updated one passes through `updateById`
unchanged. -/
theorem mem_updateById_of_ne {db : Store} {d : Decision} {i : Nat}
    (g : Decision → Decision) (hmem : d ∈ db) (hne : d.id ≠ i) :
    d ∈ updateById db i g := by
  unfold updateById
  refine List.mem_map.mpr ⟨d, hmem, ?_⟩
  simp [hne]

/-- `updateById` with an id-preserving update keeps the store's id column. -/
theorem updateById_map_id {db : Store} {i : Nat} {g : Decision → Decision}
    (hg : ∀ x, (g x).id = x.id) :
    (updateById db i g).map Decision.id = db.map Decision.id := by
  unfold updateById
  rw [List.map_map]
  refine List.map_congr_left (fun x _ => ?_)
  show (if x.id == i then g x else x).id = x.id
  split
  · exact hg x
  · rfl

/-- A predicate count never grows under an update that never turns a
non-matching row into a matching one. -/
theorem countP_updateById_le {db : Store} {i : Nat} {g : Decision → Decision}
    {p : Decision → Bool} (hp : ∀ x, p (g x) = true → p x = true) :
    (updateById db i g).countP p ≤ db.countP p := by
  unfold updateById
  rw [List.countP_map]
  refine List.countP_mono_left (fun x _ hx => ?_)
  by_cases h : x.id == i <;> simp_all [hp x]

end ApprovalOrchestrator

-- ---------------------------------------------------------------------------
-- C3 — list_pending_commits
-- ---------------------------------------------------------------------------

open ApprovalOrchestrator CommitWorker in
/-- C3: for every store state and every now, `list_pending_commits` returns
exactly the decisions in state `pending_commit` with `commit_at <= now`,
sorted ascending by `commit_at`; it never returns a row with
`commit_at > now` or a state other than `pending_commit`. -/
theorem C3_list_pending_commits_exact (db : Store) (now : ℤ) :
    List.Sorted commitLe (list_pending_commits now db) ∧
    (list_pending_commits now db).Perm
      (db.filter (fun d => d.state == .pending_commit && decide (d.commit_at ≤ now))) ∧
    ∀ d ∈ list_pending_commits now db,
      d ∈ db ∧ d.state = .pending_commit ∧ d.commit_at ≤ now := by
  refine ⟨List.sorted_insertionSort _ _, List.perm_insertionSort _ _, fun d hd => ?_⟩
  have hmem : d ∈ db.filter
      (fun d => d.state == .pending_commit && decide (d.commit_at ≤ now)) :=
    (List.perm_insertionSort commitLe _).mem_iff.mp hd
  rcases List.mem_filter.mp hmem with ⟨hdb, hpred⟩
  simp only [Bool.and_eq_true, beq_iff_eq, decide_eq_true_eq] at hpred
  exact ⟨hdb, hpred.1, hpred.2⟩

-- ---------------------------------------------------------------------------
-- C6 — Scenario A: price 200, quantity 1
-- ---------------------------------------------------------------------------

/-- C6 (counterexample): for the Scenario-A requisition (price 200,
quantity 1) the claim "score at least 40 and orchestrator outcome hold" is
false: the score is 55, which `_determine_decision` maps to
`manual_approve`, not `hold`. -/
theorem C6_counterexample :
    ¬ (40 ≤ RiskScoringEngine.score scenarioA ∧
        ApprovalOrchestrator.determine_decision (RiskScoringEngine.score scenarioA)
          = .hold) := by
  have hs : RiskScoringEngine.score scenarioA = 55 := by
    simp [RiskScoringEngine.score, scenarioA, pyMin,
      RiskScoringEngine.HIGH_VALUE_THRESHOLD, RiskScoringEngine.UNIT_PRICE_THRESHOLD,
      RiskScoringEngine.QUANTITY_THRESHOLD]
    norm_num
  rintro ⟨-, hhold⟩
  rw [hs] at hhold
  simp [ApprovalOrchestrator.determine_decision,
    ApprovalOrchestrator.LOW_RISK_THRESHOLD,
    ApprovalOrchestrator.MEDIUM_RISK_THRESHOLD] at hhold
  exact absurd hhold (by decide)

/-- C6 (amended): for the Scenario-A requisition the risk score is exactly
55 — hence at least 40 — and the orchestrator maps it to `manual_approve`. -/
theorem C6_scenarioA_score :
    RiskScoringEngine.score scenarioA = 55 ∧
    40 ≤ RiskScoringEngine.score scenarioA ∧
    ApprovalOrchestrator.determine_decision (RiskScoringEngine.score scenarioA)
      = .manual_approve := by
  have hs : RiskScoringEngine.score scenarioA = 55 := by
    simp [RiskScoringEngine.score, scenarioA, pyMin,
      RiskScoringEngine.HIGH_VALUE_THRESHOLD, RiskScoringEngine.UNIT_PRICE_THRESHOLD,
      RiskScoringEngine.QUANTITY_THRESHOLD]
    norm_num
  refine ⟨hs, by rw [hs]; norm_num, ?_⟩
  rw [hs]
  simp [ApprovalOrchestrator.determine_decision,
    ApprovalOrchestrator.LOW_RISK_THRESHOLD,
    ApprovalOrchestrator.MEDIUM_RISK_THRESHOLD]
  norm_num

-- ---------------------------------------------------------------------------
-- C5 — manual approve overwrites an auto_approve outcome
-- ---------------------------------------------------------------------------

open ApprovalOrchestrator in
/-- C5 (code evaluated at the failing input): a staged decision whose
outcome is `auto_approve` and whose state is `pending_commit` has its
outcome overwritten to `manual_approve` by `approve_decision` — although
the function's own docstring says an `auto_approve` decision "stays that
way".  The spec's invariant that an `auto_approve` outcome is never
changed is violated by the code. -/
theorem C5_approve_overwrites_auto_approve :
    autoStaged.decision = .auto_approve ∧
    autoStaged.state = .pending_commit ∧
    (approve_decision "REQ-1" none 7 [autoStaged] true).2.map Decision.decision
      = some .manual_approve ∧
    (reject_decision "REQ-1" none 7 [autoStaged] true).2.map Decision.decision
      = some .reject := by
  refine ⟨rfl, rfl, ?_, ?_⟩ <;>
    simp [approve_decision, reject_decision, find_pending_decision, autoStaged,
      activeFor, isActiveState, List.insertionSort, updateById]

-- ---------------------------------------------------------------------------
-- C9 — comment updates and the prior comment text
-- ---------------------------------------------------------------------------

/-- `dropWhile` cannot consume a list that contains an element the
predicate rejects. -/
theorem dropWhile_ne_nil_of_exists {α : Type} {q : α → Bool} {l : List α}
    (h : ∃ ch ∈ l, q ch = false) : l.dropWhile q ≠ [] := by
  induction l with
  | nil => simp at h
  | cons a t ih =>
      rcases h with ⟨ch, hch, hq⟩
      by_cases ha : q a
      · rw [List.dropWhile_cons, if_pos ha]
        rcases List.mem_cons.mp hch with rfl | hch'
        · rw [ha] at hq; cases hq
        · exact ih ⟨ch, hch', hq⟩
      · rw [List.dropWhile_cons, if_neg ha]
        exact List.cons_ne_nil a t

/-- Stripping both ends of `pl ++ sl` keeps `pl` as a prefix whenever the
head of `pl` is not strippable and `sl` contains a non-strippable
character. -/
theorem prefix_dropWhile_both {q : Char → Bool} {pl sl : List Char}
    (hne : pl ≠ []) (hhead : ∀ ch ∈ pl.head?, q ch = false)
    (hsl : ∃ ch ∈ sl, q ch = false) :
    pl <+: (((pl ++ sl).dropWhile q).reverse.dropWhile q).reverse := by
  obtain ⟨a, t, rfl⟩ : ∃ a t, pl = a :: t := by
    cases pl with
    | nil => exact absurd rfl hne
    | cons a t => exact ⟨a, t, rfl⟩
  have hqa : q a = false := hhead a (by simp)
  have h1 : ((a :: t) ++ sl).dropWhile q = (a :: t) ++ sl := by
    rw [List.cons_append, List.dropWhile_cons, if_neg (by simp [hqa])]
  rw [h1, List.reverse_append, List.dropWhile_append]
  have h2 : (sl.reverse.dropWhile q).isEmpty = false := by
    rw [List.isEmpty_eq_false]
    refine dropWhile_ne_nil_of_exists ?_
    rcases hsl with ⟨ch, hm, hq⟩
    exact ⟨ch, by simpa using hm, hq⟩
  rw [h2]
  simp only [Bool.false_eq_true, if_false, List.reverse_append, List.reverse_reverse]
  exact List.prefix_append _ _

/-- The prior comment is kept intact by a Python
`(prior + suffix).strip(chars)` update whenever its first character is not
in `chars` and the suffix has a character outside `chars`. -/
theorem prior_in_pyStrip {cs : List Char} {p suf : String}
    (hne : p ≠ "") (hhead : ∀ ch ∈ p.data.head?, cs.contains ch = false)
    (hsuf : ∃ ch ∈ suf.data, cs.contains ch = false) :
    p.data <:+: (pyStrip cs (p ++ suf)).data := by
  have hne' : p.data ≠ [] := by
    intro h
    exact hne (by cases p; simp_all)
  have : (pyStrip cs (p ++ suf)).data
      = (((p.data ++ suf.data).dropWhile (cs.contains ·)).reverse.dropWhile
          (cs.contains ·)).reverse := by
    simp [pyStrip, String.data_append]
  rw [this]
  exact (prefix_dropWhile_both hne' hhead hsuf).isInfix

/-- A `commentHeadSafe` comment's head survives both strip character sets. -/
theorem commentHeadSafe_spec {p : String} (h : commentHeadSafe p = true) :
    (∀ ch ∈ p.data.head?, pyWhitespace.contains ch = false) ∧
    (∀ ch ∈ p.data.head?, pipeSpace.contains ch = false) := by
  unfold commentHeadSafe at h
  constructor <;>
  · intro ch hch
    cases hd : p.data with
    | nil => rw [hd] at hch; cases hch
    | cons a t =>
        rw [hd] at hch h
        simp only [List.head?_cons, Option.mem_def, Option.some.injEq] at hch
        subst hch
        simp only [Bool.and_eq_true, Bool.not_eq_true'] at h
        first
        | exact h.1
        | exact h.2

open ApprovalOrchestrator in
/-- C9 (counterexample): for the pending decision whose prior comment is
the non-empty string " x", `undo_decision` produces the comment
"x [Cancelled by user]" — the leading space is stripped, so the prior
comment text is no longer contained in the new comment. -/
theorem C9_counterexample :
    spaceComment.comment = some " x" ∧
    (undo_decision "REQ-2" [spaceComment] true).2.bind Decision.comment
      = some "x [Cancelled by user]" ∧
    ¬ (" x".data <:+: "x [Cancelled by user]".data) := by
  refine ⟨rfl, ?_, by decide⟩
  simp [undo_decision, find_pending_decision, spaceComment, activeFor,
    isActiveState, List.insertionSort, undoComment, pyStrip, pyWhitespace,
    updateById]

open ApprovalOrchestrator in
/-- C9 (amended): for every decision and every non-empty prior comment
whose first character is not strippable (not whitespace and not a pipe),
after `undo_decision`, `approve_decision`, or `reject_decision` updates
the comment, the prior comment text is still contained in the new
comment. -/
theorem C9_prior_comment_contained (db : Store) (rid : String)
    (c : Option String) (now : ℤ) (d : Decision) (p : String)
    (hfind : find_pending_decision rid db = some d)
    (hc : d.comment = some p) (hne : p ≠ "")
    (hsafe : commentHeadSafe p = true) :
    (∀ d₁, (undo_decision rid db true).2 = some d₁ →
        p.data <:+: (d₁.comment.getD "").data) ∧
    (∀ d₁, (approve_decision rid c now db true).2 = some d₁ →
        p.data <:+: (d₁.comment.getD "").data) ∧
    (∀ d₁, (reject_decision rid c now db true).2 = some d₁ →
        p.data <:+: (d₁.comment.getD "").data) := by
  have hws := (commentHeadSafe_spec hsafe).1
  have hps := (commentHeadSafe_spec hsafe).2
  refine ⟨?_, ?_, ?_⟩
  · intro d₁ h₁
    simp only [undo_decision, hfind, if_true] at h₁
    cases h₁
    simp only [hc, undoComment, Option.getD_some]
    exact prior_in_pyStrip hne hws ⟨'[', by decide, by decide⟩
  · intro d₁ h₁
    simp only [approve_decision, hfind, if_true] at h₁
    cases h₁
    simp only [hc, approveComment, Option.getD_some]
    by_cases htr : pyTruthy c
    · rw [if_pos htr, String.append_assoc]
      refine prior_in_pyStrip hne hps ⟨'A', ?_, by decide⟩
      rw [String.data_append]
      exact List.mem_append_left _ (by decide)
    · rw [if_neg htr]
      exact prior_in_pyStrip hne hps ⟨'M', by decide, by decide⟩
  · intro d₁ h₁
    simp only [reject_decision, hfind, if_true] at h₁
    cases h₁
    simp only [hc, rejectComment, Option.getD_some]
    by_cases htr : pyTruthy c
    · rw [if_pos htr, String.append_assoc]
      refine prior_in_pyStrip hne hps ⟨'R', ?_, by decide⟩
      rw [String.data_append]
      exact List.mem_append_left _ (by decide)
    · rw [if_neg htr]
      exact prior_in_pyStrip hne hps ⟨'M', by decide, by decide⟩

open ApprovalOrchestrator in
/-- C9 (witness): the amended containment at a concrete store. -/
theorem C9_prior_comment_contained_witness :
    "Low risk (score: 10.00) — auto-approved".data <:+:
      (({ autoStaged with
          state := .cancelled
          comment := some (undoComment autoStaged.comment) } : Decision).comment.getD "").data :=
  (C9_prior_comment_contained [autoStaged] "REQ-1" none 7 autoStaged
    "Low risk (score: 10.00) — auto-approved" rfl rfl (by decide) (by decide)).1
    ({ autoStaged with
       state := .cancelled
       comment := some (undoComment autoStaged.comment) } : Decision) rfl

-- ---------------------------------------------------------------------------
-- C2 — already_processed is success
-- ---------------------------------------------------------------------------

open ApprovalOrchestrator CommitWorker in
/-- C2: when the worker processes a decision that is still
`pending_commit` and the connector reports `already_processed`, the worker
commits it — the very same transition as for `ok` and `simulated`: state
`committed`, `committed_at` stamped, `error_message` untouched. -/
theorem C2_already_processed_is_success (db : Store) (d fresh : Decision)
    (now : ℤ) (hfind : db.find? (fun x => x.id == d.id) = some fresh)
    (hstate : fresh.state = .pending_commit) :
    process_single_decision (fun _ => .returns (some "already_processed")) now db d
      = (markCommitted db d now, .committedRes) ∧
    process_single_decision (fun _ => .returns (some "already_processed")) now db d
      = process_single_decision (fun _ => .returns (some "ok")) now db d ∧
    process_single_decision (fun _ => .returns (some "already_processed")) now db d
      = process_single_decision (fun _ => .returns (some "simulated")) now db d ∧
    ∀ y ∈ db, y.id = d.id →
      ({ y with state := .committed, committed_at := some now } : Decision)
        ∈ markCommitted db d now := by
  refine ⟨?_, ?_, ?_, ?_⟩
  · simp [process_single_decision, hfind, hstate, ACCEPTED_ERP_STATUSES]
  · simp [process_single_decision, hfind, hstate, ACCEPTED_ERP_STATUSES]
  · simp [process_single_decision, hfind, hstate, ACCEPTED_ERP_STATUSES]
  · intro y hy hid
    unfold markCommitted updateById
    refine List.mem_map.mpr ⟨y, hy, ?_⟩
    simp [hid]

open ApprovalOrchestrator CommitWorker in
/-- C2 (witness): the three statuses commit a concrete due decision. -/
theorem C2_already_processed_is_success_witness :
    process_single_decision (fun _ => .returns (some "already_processed")) 10
      [duePending] duePending = (markCommitted [duePending] duePending 10, .committedRes) ∧
    process_single_decision (fun _ => .returns (some "already_processed")) 10
      [duePending] duePending
      = process_single_decision (fun _ => .returns (some "ok")) 10 [duePending] duePending :=
  ⟨(C2_already_processed_is_success [duePending] duePending duePending 10 rfl rfl).1,
   (C2_already_processed_is_success [duePending] duePending duePending 10 rfl rfl).2.1⟩

-- ---------------------------------------------------------------------------
-- C7 — staging is atomic
-- ---------------------------------------------------------------------------

open ApprovalOrchestrator in
/-- The staging loop only appends: its output store is the input store
followed by exactly the newly created decisions. -/
theorem stageLoop_fst (s : Settings) (now : ℤ) (db0 : Store) :
    ∀ (reqs : List Requisition) (ids : List Nat) (db : Store),
      (stageLoop s now db0 reqs ids db).1 = db ++ (stageLoop s now db0 reqs ids db).2 := by
  intro reqs
  induction reqs with
  | nil => intro ids db; simp [stageLoop]
  | cons r rs ih =>
      intro ids db
      by_cases h : has_active_decision r.erp_requisition_id db0
      · simp only [stageLoop, h, if_true]
        exact ih ids db
      · simp only [stageLoop, h, Bool.false_eq_true, if_false]
        rw [ih ids.tail (db ++ [stageOne s now (ids.headD 0) r])]
        simp [List.append_assoc]

open ApprovalOrchestrator in
/-- C7: `detect_and_stage_requisitions` persists the batch in one
transaction — when the final commit fails it rolls back and returns the
empty list and the untouched store, otherwise it returns exactly the newly
created decisions (the new store is the old one plus precisely the
returned rows). -/
theorem C7_staging_atomic (s : Settings) (now : ℤ) (reqs : List Requisition)
    (ids : List Nat) (db : Store) :
    detect_and_stage_requisitions s now reqs ids false db = (db, []) ∧
    (detect_and_stage_requisitions s now reqs ids true db).1
      = db ++ (detect_and_stage_requisitions s now reqs ids true db).2 := by
  refine ⟨by simp [detect_and_stage_requisitions], ?_⟩
  simp only [detect_and_stage_requisitions, if_true]
  exact stageLoop_fst s now db reqs ids db

-- ---------------------------------------------------------------------------
-- C10 — no reject at creation
-- ---------------------------------------------------------------------------

open ApprovalOrchestrator in
/-- Every decision created by the staging loop is a `stageOne` record. -/
theorem stageLoop_snd_shape (s : Settings) (now : ℤ) (db0 : Store) :
    ∀ (reqs : List Requisition) (ids : List Nat) (db : Store) (d : Decision),
      d ∈ (stageLoop s now db0 reqs ids db).2 → ∃ i r, d = stageOne s now i r := by
  intro reqs
  induction reqs with
  | nil => intro ids db d hd; simp [stageLoop] at hd
  | cons r rs ih =>
      intro ids db d hd
      by_cases h : has_active_decision r.erp_requisition_id db0
      · simp only [stageLoop, h, if_true] at hd
        exact ih ids db d hd
      · simp only [stageLoop, h, Bool.false_eq_true, if_false] at hd
        rcases List.mem_cons.mp hd with rfl | hd'
        · exact ⟨ids.headD 0, r, rfl⟩
        · exact ih ids.tail _ d hd'

open ApprovalOrchestrator in
/-- C10: `_determine_decision` is total into
auto_approve / manual_approve / hold, and every decision created by
`detect_and_stage_requisitions` carries one of those outcomes — never
`reject`. -/
theorem C10_no_reject_at_creation (risk : ℚ) (s : Settings) (now : ℤ)
    (reqs : List Requisition) (ids : List Nat) (ok : Bool) (db : Store) :
    (determine_decision risk = .auto_approve ∨
      determine_decision risk = .manual_approve ∨
      determine_decision risk = .hold) ∧
    determine_decision risk ≠ .reject ∧
    ∀ d ∈ (detect_and_stage_requisitions s now reqs ids ok db).2,
      d.decision ≠ .reject := by
  have htot : ∀ q : ℚ, determine_decision q = .auto_approve ∨
      determine_decision q = .manual_approve ∨ determine_decision q = .hold := by
    intro q
    unfold determine_decision
    split
    · exact Or.inl rfl
    · split
      · exact Or.inr (Or.inl rfl)
      · exact Or.inr (Or.inr rfl)
  have hnr : ∀ q : ℚ, determine_decision q ≠ .reject := by
    intro q h
    rcases htot q with h' | h' | h' <;> rw [h'] at h <;> cases h
  refine ⟨htot risk, hnr risk, fun d hd => ?_⟩
  cases ok with
  | false => simp [detect_and_stage_requisitions] at hd
  | true =>
      simp only [detect_and_stage_requisitions, if_true] at hd
      rcases stageLoop_snd_shape s now db reqs ids db d hd with ⟨i, r, rfl⟩
      exact hnr (RiskScoringEngine.score r)

open ApprovalOrchestrator in
/-- C10 (witness): a concretely staged decision is not a reject. -/
theorem C10_no_reject_at_creation_witness :
    (stageOne ⟨true, 30⟩ 0 7 scenarioA).decision ≠ .reject :=
  (C10_no_reject_at_creation 0 ⟨true, 30⟩ 0 [scenarioA] [7] true []).2.2
    (stageOne ⟨true, 30⟩ 0 7 scenarioA)
    (by simp [detect_and_stage_requisitions, stageLoop, has_active_decision])

-- ---------------------------------------------------------------------------
-- C4 — dedup guard
-- ---------------------------------------------------------------------------

namespace ApprovalOrchestrator

/-- An active row stays findable when the store only grows. -/
theorem hasActive_append {rid : String} {db : Store} (l : Store)
    (h : has_active_decision rid db = true) :
    has_active_decision rid (db ++ l) = true := by
  unfold has_active_decision at h ⊢
  rw [List.any_append, h, Bool.true_or]

/-- A freshly staged row is active for its own requisition id. -/
theorem activeFor_stageOne (s : Settings) (now : ℤ) (i : Nat) (r : Requisition) :
    activeFor r.erp_requisition_id (stageOne s now i r) = true := by
  unfold activeFor stageOne isActiveState
  by_cases h : s.auto_commit_enabled <;> simp [h]

/-- An update that never turns an inactive row active preserves the dedup
invariant. -/
theorem atMostOne_updateById {db : Store} {i : Nat} {g : Decision → Decision}
    (hinv : atMostOneActive db)
    (hg : ∀ rid x, activeFor rid (g x) = true → activeFor rid x = true) :
    atMostOneActive (updateById db i g) :=
  fun rid => le_trans (countP_updateById_le (hg rid)) (hinv rid)

/-- After the staging loop, every processed requisition has an active
decision in the final store (given that everything active in the
snapshot is still active in the running store). -/
theorem stageLoop_all_active (s : Settings) (now : ℤ) (db0 : Store) :
    ∀ (reqs : List Requisition) (ids : List Nat) (db : Store),
      (∀ rid, has_active_decision rid db0 = true →
        has_active_decision rid db = true) →
      ∀ r ∈ reqs,
        has_active_decision r.erp_requisition_id (stageLoop s now db0 reqs ids db).1
          = true := by
  intro reqs
  induction reqs with
  | nil => intro ids db _ r hr; cases hr
  | cons r0 rs ih =>
      intro ids db hsub r hr
      by_cases h : has_active_decision r0.erp_requisition_id db0
      · simp only [stageLoop, h, if_true]
        rcases List.mem_cons.mp hr with rfl | hr'
        · rw [stageLoop_fst]; exact hasActive_append _ (hsub _ h)
        · exact ih ids db hsub r hr'
      · simp only [stageLoop, h, Bool.false_eq_true, if_false]
        have hsub' : ∀ rid, has_active_decision rid db0 = true →
            has_active_decision rid (db ++ [stageOne s now (ids.headD 0) r0]) = true :=
          fun rid hrid => hasActive_append _ (hsub rid hrid)
        rcases List.mem_cons.mp hr with rfl | hr'
        · rw [stageLoop_fst]
          refine hasActive_append _ ?_
          simp [has_active_decision, List.any_append, activeFor_stageOne]
        · exact ih ids.tail _ hsub' r hr'

/-- When every requisition of the batch already has an active decision in
the snapshot the dedup check reads, the staging loop creates nothing. -/
theorem stageLoop_skip_all (s : Settings) (now : ℤ) (db0 : Store) :
    ∀ (reqs : List Requisition) (ids : List Nat) (db : Store),
      (∀ r ∈ reqs, has_active_decision r.erp_requisition_id db0 = true) →
      (stageLoop s now db0 reqs ids db).2 = [] := by
  intro reqs
  induction reqs with
  | nil => intro ids db _; simp [stageLoop]
  | cons r0 rs ih =>
      intro ids db hall
      have h0 : has_active_decision r0.erp_requisition_id db0 = true :=
        hall r0 (List.mem_cons_self _ _)
      simp only [stageLoop, h0, if_true]
      exact ih ids db (fun r hr => hall r (List.mem_cons_of_mem _ hr))

/-- The staging loop preserves the dedup invariant provided the batch has
no duplicate requisition ids: the `autoflush=False` session makes the
dedup check blind to rows added earlier in the same batch, so only the
batch's own distinctness prevents double-staging within it. -/
theorem stageLoop_atMostOne (s : Settings) (now : ℤ) (db0 : Store) :
    ∀ (reqs : List Requisition) (ids : List Nat) (db : Store),
      (reqs.map Requisition.erp_requisition_id).Nodup →
      atMostOneActive db →
      (∀ r ∈ reqs, has_active_decision r.erp_requisition_id db0 = false →
        db.countP (activeFor r.erp_requisition_id) = 0) →
      atMostOneActive (stageLoop s now db0 reqs ids db).1 := by
  intro reqs
  induction reqs with
  | nil => intro ids db _ hinv _; simpa [stageLoop] using hinv
  | cons r0 rs ih =>
      intro ids db hnd hinv hzero
      have hnd' : (rs.map Requisition.erp_requisition_id).Nodup :=
        (List.nodup_cons.mp (by simpa using hnd)).2
      have hnotin : r0.erp_requisition_id ∉ rs.map Requisition.erp_requisition_id :=
        (List.nodup_cons.mp (by simpa using hnd)).1
      by_cases h : has_active_decision r0.erp_requisition_id db0
      · simp only [stageLoop, h, if_true]
        exact ih ids db hnd' hinv (fun r hr => hzero r (List.mem_cons_of_mem _ hr))
      · simp only [stageLoop, h, Bool.false_eq_true, if_false]
        have h0 : db.countP (activeFor r0.erp_requisition_id) = 0 :=
          hzero r0 (List.mem_cons_self _ _) (Bool.eq_false_iff.mpr h)
        refine ih ids.tail _ hnd' ?_ ?_
        · intro rid
          rw [List.countP_append]
          by_cases hr : rid = r0.erp_requisition_id
          · rw [hr, h0]
            have hle : ∀ l : Store,
                l.length = 1 → l.countP (activeFor r0.erp_requisition_id) ≤ 1 :=
              fun l hl => hl ▸ List.countP_le_length (activeFor r0.erp_requisition_id)
            simpa using hle [stageOne s now (ids.headD 0) r0] rfl
          · have hne : ∀ i : Nat, activeFor rid (stageOne s now i r0) = false := by
              intro i
              unfold activeFor stageOne
              simp only [Bool.and_eq_false_iff]
              left
              simpa [beq_iff_eq] using fun heq => hr heq.symm
            simpa [List.countP_cons, hne] using hinv rid
        · intro r hr hract
          rw [List.countP_append]
          have hz := hzero r (List.mem_cons_of_mem _ hr) hract
          have hrne : r.erp_requisition_id ≠ r0.erp_requisition_id := by
            intro he
            exact hnotin (he ▸ List.mem_map_of_mem _ hr)
          have hdf : ∀ i : Nat,
              activeFor r.erp_requisition_id (stageOne s now i r0) = false := by
            intro i
            unfold activeFor stageOne
            simp only [Bool.and_eq_false_iff]
            left
            simpa [beq_iff_eq] using fun heq => hrne heq.symm
          simp [hz, List.countP_cons, hdf]
end ApprovalOrchestrator

namespace CommitWorker

open ApprovalOrchestrator

/-- Processing one candidate never increases the number of active rows of
any requisition: it only moves rows out of active states. -/
theorem processOne_countP_le (erp : Nat → ErpReply) (now : ℤ) (s : Store)
    (c : Decision) (rid : String) :
    ((process_single_decision erp now s c).1.countP (activeFor rid))
      ≤ s.countP (activeFor rid) := by
  have hfail : ∀ msg, ((mark_as_failed s c msg).countP (activeFor rid))
      ≤ s.countP (activeFor rid) := by
    intro msg
    refine countP_updateById_le ?_
    intro x hx
    simp [activeFor, isActiveState] at hx
  have hcomm : ((markCommitted s c now).countP (activeFor rid))
      ≤ s.countP (activeFor rid) := by
    refine countP_updateById_le ?_
    intro x hx
    simp [activeFor, isActiveState] at hx
  unfold process_single_decision
  cases hf : s.find? (fun x => x.id == c.id) with
  | none => simp
  | some fresh =>
      by_cases hs : fresh.state = .pending_commit
      · simp only [hs, ne_eq, not_true_eq_false, if_false]
        cases erp c.id with
        | raises msg => exact hfail msg
        | returns status =>
            by_cases hok : (status == some "already_processed"
                || status.any (fun st => ACCEPTED_ERP_STATUSES.contains st)) = true
            · simp only [hok, if_true]
              exact hcomm
            · simp only [hok, if_false]
              exact hfail _
      · simp [hs]

/-- A worker tick preserves the dedup invariant. -/
theorem run_atMostOne (erp : Nat → ErpReply) (now : ℤ) (ok : Bool) (db : Store)
    (hinv : atMostOneActive db) : atMostOneActive (run erp now ok db) := by
  unfold run
  cases ok with
  | false => simpa using hinv
  | true =>
      simp only [if_true]
      have hfold : ∀ (cands : List Decision) (st : Store), atMostOneActive st →
          atMostOneActive (cands.foldl
            (fun s c => (process_single_decision erp now s c).1) st) := by
        intro cands
        induction cands with
        | nil => intro st hst; exact hst
        | cons c cs ihc =>
            intro st hst
            rw [List.foldl_cons]
            exact ihc _ (fun rid => le_trans (processOne_countP_le erp now st c rid) (hst rid))
      exact hfold _ db hinv

end CommitWorker

open ApprovalOrchestrator in
/-- C4 (counterexample): the session is `autoflush=False`, so the dedup
check cannot see rows added earlier in the same batch — a single staging
call over a fetched batch that contains the same requisition id twice
creates two active decisions for that id, violating the claimed at-most-
one-active invariant. -/
theorem C4_counterexample :
    (detect_and_stage_requisitions ⟨true, 30⟩ 0 [scenarioA, scenarioA] [7, 8]
        true []).1.countP (activeFor "REQ-A") = 2 ∧
    ¬ atMostOneActive
        (detect_and_stage_requisitions ⟨true, 30⟩ 0 [scenarioA, scenarioA] [7, 8]
          true []).1 := by
  have h2 : (detect_and_stage_requisitions ⟨true, 30⟩ 0 [scenarioA, scenarioA] [7, 8]
      true []).1.countP (activeFor "REQ-A") = 2 := by decide
  refine ⟨h2, fun h => ?_⟩
  have := h "REQ-A"
  rw [h2] at this
  exact absurd this (by decide)

open ApprovalOrchestrator CommitWorker in
/-- C4 (amended): provided the fetched batch contains no duplicate
requisition ids, at most one decision per requisition id is active —
every core operation preserves the invariant (staging checks
`_has_active_decision` before creating a row; the other operations only
deactivate rows) — and staging called twice in succession over the same
requisition batch creates zero new decisions on the second call (the
first call's rows are committed and hence visible by then, with no
duplicate-id hypothesis needed). -/
theorem C4_dedup_guard (db : Store) (hinv : atMostOneActive db)
    (s : Settings) (now : ℤ) (reqs : List Requisition) (ids : List Nat)
    (ok : Bool) (rid : String) (c : Option String) (erp : Nat → ErpReply)
    (hnd : (reqs.map Requisition.erp_requisition_id).Nodup) :
    atMostOneActive (detect_and_stage_requisitions s now reqs ids ok db).1 ∧
    atMostOneActive (undo_decision rid db ok).1 ∧
    atMostOneActive (approve_decision rid c now db ok).1 ∧
    atMostOneActive (reject_decision rid c now db ok).1 ∧
    atMostOneActive (CommitWorker.run erp now ok db) ∧
    ∀ (s₂ : Settings) (now₂ : ℤ) (ids₂ : List Nat) (ok₂ : Bool),
      (detect_and_stage_requisitions s₂ now₂ reqs ids₂ ok₂
        (detect_and_stage_requisitions s now reqs ids true db).1).2 = [] := by
  refine ⟨?_, ?_, ?_, ?_, run_atMostOne erp now ok db hinv, ?_⟩
  · unfold detect_and_stage_requisitions
    cases ok with
    | false => simpa using hinv
    | true =>
        have hz : ∀ r ∈ reqs, has_active_decision r.erp_requisition_id db = false →
            db.countP (activeFor r.erp_requisition_id) = 0 := by
          intro r _ hract
          rw [List.countP_eq_zero]
          intro a ha hpa
          exact List.any_eq_false.mp (by simpa [has_active_decision] using hract) a ha hpa
        simpa using stageLoop_atMostOne s now db reqs ids db hnd hinv hz
  · unfold undo_decision
    cases hf : find_pending_decision rid db with
    | none => simpa using hinv
    | some d =>
        cases ok with
        | false => simpa using hinv
        | true =>
            simp only [if_true]
            refine atMostOne_updateById hinv ?_
            intro rid' x hx
            simp [activeFor, isActiveState] at hx
  · unfold approve_decision
    cases hf : find_pending_decision rid db with
    | none => simpa using hinv
    | some d =>
        cases ok with
        | false => simpa using hinv
        | true =>
            simp only [if_true]
            refine atMostOne_updateById hinv ?_
            intro rid' x hx
            simp [activeFor, isActiveState] at hx
  · unfold reject_decision
    cases hf : find_pending_decision rid db with
    | none => simpa using hinv
    | some d =>
        cases ok with
        | false => simpa using hinv
        | true =>
            simp only [if_true]
            refine atMostOne_updateById hinv ?_
            intro rid' x hx
            simp [activeFor, isActiveState] at hx
  · intro s₂ now₂ ids₂ ok₂
    unfold detect_and_stage_requisitions
    cases ok₂ with
    | false => simp
    | true =>
        simp only [if_true]
        refine stageLoop_skip_all s₂ now₂ _ reqs ids₂ _ ?_
        intro r hr
        exact stageLoop_all_active s now db reqs ids db (fun _ h => h) r hr

open ApprovalOrchestrator in
/-- C4 (witness): staging the same batch twice at a concrete input stages
nothing the second time. -/
theorem C4_dedup_guard_witness :
    (detect_and_stage_requisitions ⟨true, 30⟩ 0 [scenarioA] [8] true
      (detect_and_stage_requisitions ⟨true, 30⟩ 0 [scenarioA] [7] true []).1).2 = [] :=
  (C4_dedup_guard [] (fun rid => by simp [List.countP_nil]) ⟨true, 30⟩ 0 [scenarioA]
    [7] true "R" none (fun _ => .returns none) (by decide)).2.2.2.2.2 ⟨true, 30⟩ 0 [8] true

-- ---------------------------------------------------------------------------
-- C1 — terminal states are final
-- ---------------------------------------------------------------------------

namespace CommitWorker

open ApprovalOrchestrator

/-- Processing one candidate leaves every terminal row untouched (the
double-commit guard only lets a still-pending row be updated) and keeps
the id column. -/
theorem processOne_terminal_mem (erp : Nat → ErpReply) (now : ℤ) (c : Decision)
    {s : Store} {d : Decision} (hn : (s.map Decision.id).Nodup) (hmem : d ∈ s)
    (hterm : isTerminal d.state = true) :
    d ∈ (process_single_decision erp now s c).1 ∧
    (process_single_decision erp now s c).1.map Decision.id = s.map Decision.id := by
  unfold process_single_decision
  cases hf : s.find? (fun x => x.id == c.id) with
  | none => exact ⟨hmem, rfl⟩
  | some fresh =>
      by_cases hs : fresh.state = .pending_commit
      · have hfm : fresh ∈ s := List.mem_of_find?_eq_some hf
        have hfid : fresh.id = c.id := by simpa using List.find?_some hf
        have hne : d.id ≠ c.id := by
          intro hdc
          have heq : d = fresh :=
            List.inj_on_of_nodup_map hn hmem hfm (by rw [hfid, hdc])
          rw [← heq] at hs
          rw [hs] at hterm
          simp [isTerminal] at hterm
        have hidmap : ∀ g : Decision → Decision, (∀ x, (g x).id = x.id) →
            d ∈ updateById s c.id g ∧
            (updateById s c.id g).map Decision.id = s.map Decision.id :=
          fun g hg => ⟨mem_updateById_of_ne g hmem hne, updateById_map_id hg⟩
        simp only [hs, ne_eq, not_true_eq_false, if_false]
        cases erp c.id with
        | raises msg => exact hidmap _ (fun x => rfl)
        | returns status =>
            by_cases hok : (status == some "already_processed"
                || status.any (fun st => ACCEPTED_ERP_STATUSES.contains st)) = true
            · simp only [hok, if_true]
              exact hidmap _ (fun x => rfl)
            · simp only [hok, if_false]
              exact hidmap _ (fun x => rfl)
      · constructor
        · simp only [ne_eq, hs, not_false_eq_true, if_true]
          exact hmem
        · simp only [ne_eq, hs, not_false_eq_true, if_true]

/-- A whole tick's fold leaves every terminal row in place. -/
theorem tickFold_terminal_mem (erp : Nat → ErpReply) (now : ℤ) :
    ∀ (cands : List Decision) (s : Store) (d : Decision),
      (s.map Decision.id).Nodup → d ∈ s → isTerminal d.state = true →
      d ∈ cands.foldl (fun s c => (process_single_decision erp now s c).1) s := by
  intro cands
  induction cands with
  | nil => intro s d _ hmem _; exact hmem
  | cons c cs ih =>
      intro s d hn hmem hterm
      rw [List.foldl_cons]
      have h := processOne_terminal_mem erp now c hn hmem hterm
      exact ih _ d (by rw [h.2]; exact hn) h.1 hterm

end CommitWorker

open ApprovalOrchestrator CommitWorker in
/-- C1: once a decision row is in a terminal state (`committed`,
`cancelled` or `failed`), no core operation touches it again: undo,
approve and reject select only active rows, staging only appends, and the
Commit Worker re-reads each candidate and skips it unless it is still
`pending_commit` — so the unchanged terminal row is still in the store
after every operation. -/
theorem C1_terminal_states_final (db : Store) (d : Decision)
    (hnodup : (db.map Decision.id).Nodup) (hmem : d ∈ db)
    (hterm : isTerminal d.state = true) :
    (∀ (rid : String) (ok : Bool), d ∈ (undo_decision rid db ok).1) ∧
    (∀ (rid : String) (c : Option String) (now : ℤ) (ok : Bool),
      d ∈ (approve_decision rid c now db ok).1) ∧
    (∀ (rid : String) (c : Option String) (now : ℤ) (ok : Bool),
      d ∈ (reject_decision rid c now db ok).1) ∧
    (∀ (s : Settings) (now : ℤ) (reqs : List Requisition) (ids : List Nat) (ok : Bool),
      d ∈ (detect_and_stage_requisitions s now reqs ids ok db).1) ∧
    (∀ (erp : Nat → ErpReply) (now : ℤ) (ok : Bool),
      d ∈ CommitWorker.run erp now ok db) ∧
    (∀ (erp : Nat → ErpReply) (now : ℤ) (st : Store) (c fresh : Decision),
      st.find? (fun x => x.id == c.id) = some fresh →
      fresh.state ≠ .pending_commit →
      process_single_decision erp now st c = (st, .skippedRes)) := by
  have hne_found : ∀ (rid : String) (f : Decision),
      find_pending_decision rid db = some f → d.id ≠ f.id := by
    intro rid f hf hid
    obtain ⟨hfm, hact⟩ := find_pending_decision_spec hf
    have heq : d = f := List.inj_on_of_nodup_map hnodup hmem hfm hid
    have hterm' := not_terminal_of_activeFor hact
    rw [← heq] at hterm'
    rw [hterm'] at hterm
    cases hterm
  refine ⟨?_, ?_, ?_, ?_, ?_, ?_⟩
  · intro rid ok
    unfold undo_decision
    cases hf : find_pending_decision rid db with
    | none => exact hmem
    | some f =>
        cases ok with
        | false => exact hmem
        | true =>
            simp only [if_true]
            exact mem_updateById_of_ne _ hmem (hne_found rid f hf)
  · intro rid c now ok
    unfold approve_decision
    cases hf : find_pending_decision rid db with
    | none => exact hmem
    | some f =>
        cases ok with
        | false => exact hmem
        | true =>
            simp only [if_true]
            exact mem_updateById_of_ne _ hmem (hne_found rid f hf)
  · intro rid c now ok
    unfold reject_decision
    cases hf : find_pending_decision rid db with
    | none => exact hmem
    | some f =>
        cases ok with
        | false => exact hmem
        | true =>
            simp only [if_true]
            exact mem_updateById_of_ne _ hmem (hne_found rid f hf)
  · intro s now reqs ids ok
    unfold detect_and_stage_requisitions
    cases ok with
    | false => exact hmem
    | true =>
        simp only [if_true]
        rw [stageLoop_fst]
        exact List.mem_append_left _ hmem
  · intro erp now ok
    unfold CommitWorker.run
    cases ok with
    | false => exact hmem
    | true =>
        simp only [if_true]
        exact tickFold_terminal_mem erp now _ db d hnodup hmem hterm
  · intro erp now st c fresh hf hst
    unfold process_single_decision
    rw [hf]
    simp only [ne_eq, hst, not_false_eq_true, if_true]

open ApprovalOrchestrator CommitWorker in
/-- C1 (witness): a committed row survives a concrete undo and a concrete
worker tick untouched. -/
theorem C1_terminal_states_final_witness :
    committedRow ∈ (undo_decision "REQ-3" [committedRow] true).1 ∧
    committedRow ∈ CommitWorker.run (fun _ => .returns (some "ok")) 10 true [committedRow] :=
  ⟨(C1_terminal_states_final [committedRow] committedRow (by simp)
      (List.mem_singleton.mpr rfl) (by decide)).1 "REQ-3" true,
   (C1_terminal_states_final [committedRow] committedRow (by simp)
      (List.mem_singleton.mpr rfl) (by decide)).2.2.2.2.1
      (fun _ => .returns (some "ok")) 10 true⟩

-- ---------------------------------------------------------------------------
-- C8 — CSRF refresh-and-retry
-- ---------------------------------------------------------------------------

open SAPERPAdapter in
/-- C8: on a 403 for a non-GET request the live connector refreshes the
CSRF token once and resends that single request exactly once; a GET that
receives 403 is never retried and fails; and no call ever sends the
request more than twice or fetches the token more than once. -/
theorem C8_csrf_refresh_once (resp2 : Nat) :
    (∀ m : HttpMethod, m ≠ .get →
      execute_request m 403 resp2
        = { attempts := 2, tokenFetches := 1, finalStatus := resp2,
            succeeded := statusOk resp2 }) ∧
    execute_request .get 403 resp2
      = { attempts := 1, tokenFetches := 0, finalStatus := 403,
          succeeded := false } ∧
    (∀ (m : HttpMethod) (r1 : Nat),
      (execute_request m r1 resp2).attempts ≤ 2 ∧
      (execute_request m r1 resp2).tokenFetches ≤ 1) := by
  refine ⟨?_, ?_, ?_⟩
  · intro m hm
    unfold execute_request
    rw [if_pos ⟨rfl, hm⟩]
  · unfold execute_request
    rw [if_neg (by simp)]
    rfl
  · intro m r1
    unfold execute_request
    split <;> simp

open SAPERPAdapter in
/-- C8 (witness): a POST that receives 403 and then 200 is sent twice with
one token refresh. -/
theorem C8_csrf_refresh_once_witness :
    execute_request .post 403 200
      = { attempts := 2, tokenFetches := 1, finalStatus := 200,
          succeeded := statusOk 200 } :=
  (C8_csrf_refresh_once 200).1 .post (by decide)

end ASAP
